import Mathlib

/-!
# To-do service: repository operations and HTTP handlers

A shallow embedding of `src/go/main.go`.

* Go values: an `error` is `Option String` (`none` is `nil`, `some msg` an error
  whose `Error()` text is `msg`); a `[]Todo` is a `Slice Todo`, which keeps the
  difference between the nil slice and an allocated one; a `*Todo` is
  `Option Todo`; `int64` identifiers are `Int` (the program does no arithmetic on
  them).
* `database/sql` is an interface record `DB σ` over an arbitrary store state `σ`:
  the program is verified against every behaviour of the driver.
* `net/http`'s `ResponseWriter` is a record of the header map, the status line
  once written, and the body written so far.
* `encoding/json`'s encoder is modelled on the byte level for the two values the
  program encodes (`[]Todo` and `*Todo`). Its decoder is a parameter of
  `handlePostTodos`; `decodeTodoData` is the decoder of the library into a
  `TodoData`, built on a JSON reader that also serves to say what JSON value a
  text is.
-/

namespace Todos

/-! ## Go values -/

/-- A Go `error`: `none` is `nil`, `some msg` is an error with `Error() = msg`. -/
abbrev GoError := Option String

/-- The `TodoData` struct (main.go:17-20). -/
structure TodoData where
  Title : String
  Done : Bool
deriving DecidableEq, Repr

/-- The `Todo` struct (main.go:22-26), JSON keys `id`, `title`, `done`. -/
structure Todo where
  Id : Int
  Title : String
  Done : Bool
deriving DecidableEq, Repr

/-- A Go slice value: `nil` (what `var todos []Todo` declares) or an allocated
slice with its elements. -/
inductive Slice (α : Type) where
  | nil : Slice α
  | mk : List α → Slice α
deriving DecidableEq, Repr

/-- The elements of a slice; the nil slice has none. -/
def Slice.toList {α : Type} : Slice α → List α
  | .nil => []
  | .mk xs => xs

/-- Go's `len`. -/
def Slice.len {α : Type} (s : Slice α) : Nat := s.toList.length

/-- Go's `append(s, x)`: the result is always an allocated slice. -/
def Slice.append {α : Type} (s : Slice α) (x : α) : Slice α :=
  .mk (s.toList ++ [x])

/-! ## database/sql -/

/-- An `sql.Result` as far as the program uses it: the outcome of `LastInsertId()`. -/
structure Result where
  LastInsertId : Except String Int

/-- An `sql.Rows` cursor as far as the program drives it. `scans` lists, in the
order the store yields them, the rows for which `Next()` reports true, each with
the outcome of `Scan` into an `int64`, a `string` and a `bool` destination: the
values of the first, second and third column, or the scan error. `err` is what
`Err()` holds once `Next()` reports false: `none` when the result set was
exhausted, `some msg` when iteration stopped on an error. -/
structure Rows where
  scans : List (Except String (Int × String × Bool))
  err : GoError

/-- The `*sql.DB` handle over a store state `σ`. `Query` and `Prepare` take the
SQL text; `Exec` runs the prepared statement with the two bound arguments and
yields the new store state. -/
structure DB (σ : Type) where
  Query : σ → String → Except String Rows
  Prepare : σ → String → GoError
  Exec : σ → String → String → Bool → Except String Result × σ

/-- The constant getQuery (main.go:13). -/
def getQuery : String := "SELECT * FROM todos;"

/-- The constant createQuery (main.go:14). -/
def createQuery : String := "INSERT INTO todos (title, done) VALUES (?, ?);"

/-! ## Repository operations -/

/-- The loop of `readAllTodos` (main.go:40-48) over the rows `Next()` yields,
with the slice accumulated so far. A failed `Scan` returns `nil` and the wrapped
error; when `Next()` reports false the loop ends. -/
def scanRows : List (Except String (Int × String × Bool)) → Slice Todo → Slice Todo × GoError
  | [], todos => (todos, none)
  | .error e :: _, _ => (.nil, some ("Failed to query database: " ++ e))
  | .ok (c1, c2, c3) :: rest, todos => scanRows rest (todos.append ⟨c1, c2, c3⟩)

/-- The function `readAllTodos` (main.go:31-51). After the loop it returns
`todos, nil`; `rows.Err()` is not consulted. -/
def readAllTodos {σ : Type} (db : DB σ) (s : σ) : Slice Todo × GoError :=
  match db.Query s getQuery with
  | .error e => (.nil, some ("Failed to query database: " ++ e))
  | .ok rows => scanRows rows.scans .nil

/-- The function `createTodo` (main.go:53-75): the returned pointer and error,
and the store state afterwards. -/
def createTodo {σ : Type} (db : DB σ) (s : σ) (todoData : TodoData) :
    (Option Todo × GoError) × σ :=
  match db.Prepare s createQuery with
  | some e => ((none, some ("Failed to prepare query: " ++ e)), s)
  | none =>
    match db.Exec s createQuery todoData.Title todoData.Done with
    | (.error e, s1) => ((none, some ("Failed to insert row: " ++ e)), s1)
    | (.ok res, s1) =>
      match res.LastInsertId with
      | .error e => ((none, some ("Failed to get last id: " ++ e)), s1)
      | .ok id => ((some ⟨id, todoData.Title, todoData.Done⟩, none), s1)

/-! ## encoding/json, encoder side -/

/-- The lower-case hexadecimal digit of `n < 16`. -/
def hexDigit (n : Nat) : Char :=
  if n < 10 then Char.ofNat (48 + n) else Char.ofNat (87 + n)

/-- The table `htmlSafeSet` of encoding/json: the ASCII bytes the encoder copies
unescaped when HTML escaping is on, which is the default of `json.NewEncoder`. -/
def htmlSafe (b : Nat) : Bool :=
  decide (0x20 ≤ b) && decide (b < 0x80) && b != 0x22 && b != 0x5c
    && b != 0x3c && b != 0x3e && b != 0x26

/-- What the encoder writes for one character of a string. -/
def encodeChar (c : Char) : List Char :=
  let b := c.toNat
  if b < 0x80 then
    if htmlSafe b then [c]
    else if b = 0x5c ∨ b = 0x22 then [Char.ofNat 0x5c, c]
    else if b = 0x08 then [Char.ofNat 0x5c, Char.ofNat 0x62]
    else if b = 0x0c then [Char.ofNat 0x5c, Char.ofNat 0x66]
    else if b = 0x0a then [Char.ofNat 0x5c, Char.ofNat 0x6e]
    else if b = 0x0d then [Char.ofNat 0x5c, Char.ofNat 0x72]
    else if b = 0x09 then [Char.ofNat 0x5c, Char.ofNat 0x74]
    else [Char.ofNat 0x5c, Char.ofNat 0x75, Char.ofNat 0x30, Char.ofNat 0x30,
          hexDigit (b / 16), hexDigit (b % 16)]
  else if b = 0x2028 ∨ b = 0x2029 then
    [Char.ofNat 0x5c, Char.ofNat 0x75, Char.ofNat 0x32, Char.ofNat 0x30,
     Char.ofNat 0x32, hexDigit (b % 16)]
  else [c]

/-- A Go string as a JSON string literal. -/
def encodeString (s : String) : String :=
  String.mk ([Char.ofNat 0x22] ++ s.toList.flatMap encodeChar ++ [Char.ofNat 0x22])

/-- The decimal digits of a natural number, most significant first; `fuel`
bounds the number of digits. -/
def natDigits : Nat → Nat → List Char → List Char
  | 0, _, acc => acc
  | fuel + 1, n, acc =>
    if n < 10 then hexDigit n :: acc
    else natDigits fuel (n / 10) (hexDigit (n % 10) :: acc)

/-- An `int64` in decimal, as `strconv.AppendInt(_, v, 10)` writes it. -/
def encodeInt (v : Int) : String :=
  match v with
  | .ofNat n => String.mk (natDigits (n + 1) n [])
  | .negSucc n => String.mk (Char.ofNat 0x2d :: natDigits (n + 2) (n + 1) [])

/-- A `bool` as JSON. -/
def encodeBool (b : Bool) : String := if b then "true" else "false"

/-- A `Todo` struct as a JSON object: the fields in declaration order under the
keys of their struct tags (main.go:23-25). -/
def encodeTodo (t : Todo) : String :=
  "\x7b\"id\":" ++ encodeInt t.Id ++ ",\"title\":" ++ encodeString t.Title
    ++ ",\"done\":" ++ encodeBool t.Done ++ "\x7d"

/-- A `[]Todo` as JSON: the nil slice is `null`, an allocated slice an array. -/
def encodeTodos : Slice Todo → String
  | .nil => "null"
  | .mk xs => "[" ++ ",".intercalate (xs.map encodeTodo) ++ "]"

/-- A `*Todo` as JSON: the nil pointer is `null`. -/
def encodeTodoPtr : Option Todo → String
  | none => "null"
  | some t => encodeTodo t

/-! ## encoding/json, decoder side -/

/-- A JSON value. An integer literal carries its value; a number written with a
fraction or an exponent carries its text. -/
inductive Json where
  | null : Json
  | bool (b : Bool) : Json
  | int (n : Int) : Json
  | real (text : List Char) : Json
  | str (s : String) : Json
  | arr (elems : List Json) : Json
  | obj (members : List (String × Json)) : Json

/-- JSON white space: space, tab, carriage return, line feed. -/
def isSpace (c : Char) : Bool :=
  c.toNat == 0x20 || c.toNat == 0x09 || c.toNat == 0x0d || c.toNat == 0x0a

/-- The input after its leading white space. -/
def skipSpace : List Char → List Char
  | [] => []
  | c :: r => if isSpace c then skipSpace r else c :: r

/-- Whether the character is a decimal digit. -/
def isDigit (c : Char) : Bool := decide (0x30 ≤ c.toNat) && decide (c.toNat ≤ 0x39)

/-- The value of a hexadecimal digit, of either case. -/
def hexValue (c : Char) : Option Nat :=
  let b := c.toNat
  if 0x30 ≤ b ∧ b ≤ 0x39 then some (b - 0x30)
  else if 0x61 ≤ b ∧ b ≤ 0x66 then some (b - 0x61 + 10)
  else if 0x41 ≤ b ∧ b ≤ 0x46 then some (b - 0x41 + 10)
  else none

/-- The value of four hexadecimal digits. -/
def hex4 (a b c d : Char) : Option Nat :=
  match hexValue a, hexValue b, hexValue c, hexValue d with
  | some x, some y, some z, some w => some (((x * 16 + y) * 16 + z) * 16 + w)
  | _, _, _, _ => none

/-- The character of a `\u` escape whose four digits have been read as `v`, and
the input after it. A high surrogate directly followed by the escape of a low
surrogate is the pair's character; any other surrogate is U+FFFD. -/
def readUnicode (v : Nat) (r : List Char) : Char × List Char :=
  if 0xd800 ≤ v ∧ v < 0xe000 then
    match r with
    | b :: u :: g1 :: g2 :: g3 :: g4 :: r1 =>
      if b.toNat = 0x5c ∧ u.toNat = 0x75 then
        match hex4 g1 g2 g3 g4 with
        | some v2 =>
          if v < 0xdc00 ∧ 0xdc00 ≤ v2 ∧ v2 < 0xe000 then
            (Char.ofNat (0x10000 + (v - 0xd800) * 0x400 + (v2 - 0xdc00)), r1)
          else (Char.ofNat 0xfffd, r)
        | none => (Char.ofNat 0xfffd, r)
      else (Char.ofNat 0xfffd, r)
    | _ => (Char.ofNat 0xfffd, r)
  else (Char.ofNat v, r)

/-- The character an escape stands for, the input being what follows the
backslash. -/
def readEscape : List Char → Option (Char × List Char)
  | [] => none
  | e :: r =>
    let b := e.toNat
    if b = 0x22 ∨ b = 0x5c ∨ b = 0x2f then some (e, r)
    else if b = 0x62 then some (Char.ofNat 0x08, r)
    else if b = 0x66 then some (Char.ofNat 0x0c, r)
    else if b = 0x6e then some (Char.ofNat 0x0a, r)
    else if b = 0x72 then some (Char.ofNat 0x0d, r)
    else if b = 0x74 then some (Char.ofNat 0x09, r)
    else if b = 0x75 then
      match r with
      | h1 :: h2 :: h3 :: h4 :: r1 =>
        match hex4 h1 h2 h3 h4 with
        | some v => some (readUnicode v r1)
        | none => none
      | _ => none
    else none

/-- One character of a string literal, escaped or not, and the input after it.
Control characters are not allowed unescaped. -/
def readChar : List Char → Option (Char × List Char)
  | [] => none
  | c :: r =>
    if c.toNat = 0x5c then readEscape r
    else if c.toNat < 0x20 then none
    else some (c, r)

/-- The string literal whose opening quote has been read, `acc` holding the
characters read so far, and the input after the closing quote. `fuel` bounds the
number of characters. -/
def readString : Nat → List Char → List Char → Option (String × List Char)
  | 0, _, _ => none
  | _ + 1, _, [] => none
  | fuel + 1, acc, c :: r =>
    if c.toNat = 0x22 then some (String.mk acc, r)
    else
      match readChar (c :: r) with
      | none => none
      | some (ch, r1) => readString fuel (acc ++ [ch]) r1

/-- The longest run of digits at the head of the input, and the input after it. -/
def takeDigits : List Char → List Char × List Char
  | [] => ([], [])
  | c :: r => if isDigit c then ((takeDigits r).1.cons c, (takeDigits r).2) else ([], c :: r)

/-- The number a run of digits denotes. -/
def digitsValue (ds : List Char) : Nat :=
  ds.foldl (fun a c => 10 * a + (c.toNat - 0x30)) 0

/-- The integer part of a number: a single `0`, or a run of digits. -/
def takeIntPart : List Char → List Char × List Char
  | [] => ([], [])
  | c :: r => if c.toNat = 0x30 then ([c], r) else takeDigits (c :: r)

/-- The fraction of a number, when the input starts one: the text read and the
input after it. `none` when a decimal point is not followed by a digit. -/
def takeFraction : List Char → Option (List Char × List Char)
  | [] => some ([], [])
  | c :: r =>
    if c.toNat = 0x2e then
      if (takeDigits r).1 = [] then none else some (c :: (takeDigits r).1, (takeDigits r).2)
    else some ([], c :: r)

/-- The exponent of a number, when the input starts one. `none` when the
exponent mark is not followed by digits, after an optional sign. -/
def takeExponent : List Char → Option (List Char × List Char)
  | [] => some ([], [])
  | c :: r =>
    if c.toNat = 0x65 ∨ c.toNat = 0x45 then
      match r with
      | [] => none
      | g :: r1 =>
        if g.toNat = 0x2b ∨ g.toNat = 0x2d then
          if (takeDigits r1).1 = [] then none
          else some (c :: g :: (takeDigits r1).1, (takeDigits r1).2)
        else if (takeDigits r).1 = [] then none
        else some (c :: (takeDigits r).1, (takeDigits r).2)
    else some ([], c :: r)

/-- A number after its optional minus sign. -/
def readUnsigned (neg : Bool) (cs : List Char) : Option (Json × List Char) :=
  let ip := takeIntPart cs
  if ip.1 = [] then none
  else
    match takeFraction ip.2 with
    | none => none
    | some (fr, r1) =>
      match takeExponent r1 with
      | none => none
      | some (ex, r2) =>
        if fr = [] ∧ ex = [] then
          some (.int (if neg then - (digitsValue ip.1 : Int) else (digitsValue ip.1 : Int)), r2)
        else some (.real ((if neg then [Char.ofNat 0x2d] else []) ++ ip.1 ++ fr ++ ex), r2)

/-- A number literal at the head of the input. -/
def readNumber : List Char → Option (Json × List Char)
  | [] => none
  | c :: r => if c.toNat = 0x2d then readUnsigned true r else readUnsigned false (c :: r)

/-- One of the literals `true`, `false`, `null` at the head of the input. -/
def readLiteral : List Char → Option (Json × List Char)
  | 't' :: 'r' :: 'u' :: 'e' :: r => some (.bool true, r)
  | 'f' :: 'a' :: 'l' :: 's' :: 'e' :: r => some (.bool false, r)
  | 'n' :: 'u' :: 'l' :: 'l' :: r => some (.null, r)
  | _ => none

/-- The deepest nesting of arrays and objects the scanner of encoding/json
accepts. -/
def maxNestingDepth : Nat := 10000

/-- What the parser is reading: a value, the members of an object after the
ones in `acc`, or the elements of an array after the ones in `acc`. -/
inductive Goal where
  | value : Goal
  | members (acc : List (String × Json)) : Goal
  | elements (acc : List Json) : Goal

/-- The JSON value at the head of the input, and the input after it. `depth`
counts the enclosing arrays and objects; `fuel` bounds the number of steps. -/
def parse : Nat → Nat → Goal → List Char → Option (Json × List Char)
  | 0, _, _, _ => none
  | _ + 1, _, _, [] => none
  | fuel + 1, depth, .value, c :: r =>
    if c.toNat = 0x7b then
      if maxNestingDepth ≤ depth then none
      else
        match skipSpace r with
        | [] => none
        | c1 :: r1 =>
          if c1.toNat = 0x7d then some (.obj [], r1)
          else parse fuel (depth + 1) (.members []) (c1 :: r1)
    else if c.toNat = 0x5b then
      if maxNestingDepth ≤ depth then none
      else
        match skipSpace r with
        | [] => none
        | c1 :: r1 =>
          if c1.toNat = 0x5d then some (.arr [], r1)
          else parse fuel (depth + 1) (.elements []) (c1 :: r1)
    else if c.toNat = 0x22 then
      match readString (r.length + 1) [] r with
      | none => none
      | some (s, r1) => some (.str s, r1)
    else if isDigit c ∨ c.toNat = 0x2d then readNumber (c :: r)
    else readLiteral (c :: r)
  | fuel + 1, depth, .members acc, c :: r =>
    if c.toNat = 0x22 then
      match readString (r.length + 1) [] r with
      | none => none
      | some (k, r1) =>
        match skipSpace r1 with
        | [] => none
        | c1 :: r2 =>
          if c1.toNat = 0x3a then
            match parse fuel depth .value (skipSpace r2) with
            | none => none
            | some (v, r3) =>
              match skipSpace r3 with
              | [] => none
              | c3 :: r4 =>
                if c3.toNat = 0x2c then parse fuel depth (.members (acc ++ [(k, v)])) (skipSpace r4)
                else if c3.toNat = 0x7d then some (.obj (acc ++ [(k, v)]), r4)
                else none
          else none
    else none
  | fuel + 1, depth, .elements acc, c :: r =>
    match parse fuel depth .value (c :: r) with
    | none => none
    | some (v, r1) =>
      match skipSpace r1 with
      | [] => none
      | c1 :: r2 =>
        if c1.toNat = 0x2c then parse fuel depth (.elements (acc ++ [v])) (skipSpace r2)
        else if c1.toNat = 0x5d then some (.arr (acc ++ [v]), r2)
        else none

/-- The first JSON value of a text, after leading white space, and what follows
it. -/
def parseFirst (text : String) : Option (Json × List Char) :=
  parse (text.length + 1) 0 .value (skipSpace text.data)

/-- The folding of one character of a name, as `foldName` of encoding/json does
it: an ASCII lower-case letter becomes its upper-case letter, and a character
outside ASCII becomes the smallest character of its case-folding set. Four such
characters fold into ASCII: U+0131 to `I`, U+017F to `S`, U+212A to `K` and
U+0130 to `i`; every other one stays outside ASCII and is left as it is here. -/
def foldChar (c : Char) : Char :=
  let b := c.toNat
  if 0x61 ≤ b ∧ b ≤ 0x7a then Char.ofNat (b - 0x20)
  else if b = 0x131 then Char.ofNat 0x49
  else if b = 0x17f then Char.ofNat 0x53
  else if b = 0x212a then Char.ofNat 0x4b
  else if b = 0x130 then Char.ofNat 0x69
  else c

/-- Whether an object key names the struct field: the decoder takes the field
whose name equals the key, and failing that the one whose folded name equals the
folded key. -/
def keyMatches (key name : String) : Bool :=
  key == name || key.data.map foldChar == name.data.map foldChar

/-- One member of an object stored into a `TodoData`; the flag records a value of
a type the field does not take. A `null` leaves the field as it is; a member that
names no field is skipped. -/
def storeMember (st : TodoData × Bool) (m : String × Json) : TodoData × Bool :=
  if keyMatches m.1 "Title" then
    match m.2 with
    | .str s => ({ st.1 with Title := s }, st.2)
    | .null => st
    | _ => (st.1, true)
  else if keyMatches m.1 "Done" then
    match m.2 with
    | .bool b => ({ st.1 with Done := b }, st.2)
    | .null => st
    | _ => (st.1, true)
  else st

/-- A JSON value stored into the zero `TodoData` that `var todoData TodoData`
declares: the members of an object in order, nothing for `null`; any other value
is an error. -/
def unmarshal : Json → Option TodoData
  | .obj ms =>
    let st := ms.foldl storeMember (⟨"", false⟩, false)
    if st.2 then none else some st.1
  | .null => some ⟨"", false⟩
  | _ => none

/-- The call `json.NewDecoder(r.Body).Decode(&todoData)` on a request body: the
first JSON value of the body is read and stored, what follows it is left unread.
`errText body` stands for the text of the error reported for a body that is
refused; the text is not modelled. -/
def decodeTodoData (errText : String → String) (body : String) : Except String TodoData :=
  match parseFirst body with
  | none => .error (errText body)
  | some (v, _) =>
    match unmarshal v with
    | none => .error (errText body)
    | some todoData => .ok todoData

/-! ## net/http -/

/-- An `http.ResponseWriter`: the header map, the status code once the header has
been written, and the body bytes written so far. -/
structure ResponseWriter where
  header : List (String × String)
  status : Option Nat
  body : String
deriving DecidableEq, Repr

/-- A response writer nothing has been written to. -/
def ResponseWriter.fresh : ResponseWriter := ⟨[], none, ""⟩

/-- The call `w.Header().Set(k, v)`; it changes the response only while the header
has not been written. -/
def ResponseWriter.Set (w : ResponseWriter) (k v : String) : ResponseWriter :=
  match w.status with
  | none => { w with header := w.header.filter (fun kv => kv.1 != k) ++ [(k, v)] }
  | some _ => w

/-- The call `w.WriteHeader(code)`; only the first call counts. -/
def ResponseWriter.WriteHeader (w : ResponseWriter) (code : Nat) : ResponseWriter :=
  match w.status with
  | none => { w with status := some code }
  | some _ => w

/-- The call `w.Write(data)`; the first write sends status 200 when no header was
written before. -/
def ResponseWriter.Write (w : ResponseWriter) (data : String) : ResponseWriter :=
  let w1 := w.WriteHeader 200
  { w1 with body := w1.body ++ data }

/-- The constant http.StatusBadRequest. -/
def StatusBadRequest : Nat := 400

/-- The constant http.StatusInternalServerError. -/
def StatusInternalServerError : Nat := 500

/-! ## HTTP handlers -/

/-- The function `handleGetTodos` (main.go:77-88): the response writer afterwards
and the lines logged. `Encode` writes the JSON text followed by a newline. -/
def handleGetTodos {σ : Type} (db : DB σ) (s : σ) (w : ResponseWriter) :
    ResponseWriter × List String :=
  match readAllTodos db s with
  | (_, some err) =>
    ((w.WriteHeader StatusInternalServerError).Write "Internal Server Error", [err])
  | (todos, none) =>
    (((w.Set "Content-Type" "application/json").Write (encodeTodos todos ++ "\n")), [])

/-- The function `handlePostTodos` (main.go:90-110) on a request with the given
body: the response writer afterwards, the lines logged and the store state
afterwards. `decode` is `json.NewDecoder(r.Body).Decode` into a `TodoData`. -/
def handlePostTodos {σ : Type} (db : DB σ) (decode : String → Except String TodoData)
    (s : σ) (body : String) (w : ResponseWriter) : ResponseWriter × List String × σ :=
  match decode body with
  | .error e =>
    ((w.WriteHeader StatusBadRequest).Write "Bad Request",
      ["Failed to decode post body " ++ e], s)
  | .ok todoData =>
    match createTodo db s todoData with
    | ((_, some err), s1) =>
      ((w.WriteHeader StatusInternalServerError).Write "Internal Server Error", [err], s1)
    | ((todo, none), s1) =>
      ((w.Set "Content-Type" "application/json").Write (encodeTodoPtr todo ++ "\n"), [], s1)

/-! ## Stores -/

/-- A store whose answers are scripted: the outcome of the query, of statement
preparation and of execution are fixed, and `execCalls` counts the executions. -/
structure Script where
  query : Except String Rows
  prepare : GoError
  exec : Except String Result
  execCalls : Nat

/-- The handle of a scripted store. -/
def scriptedDB : DB Script where
  Query := fun s _ => s.query
  Prepare := fun s _ => s.prepare
  Exec := fun s _ _ _ => (s.exec, { s with execCalls := s.execCalls + 1 })

/-- Modelled from the spec: a row of the persisted table `todos` (section 6:
columns `id` integer auto-assigned primary key, `title` text, `done` boolean).
The table is created outside the repository. -/
structure Row where
  id : Int
  title : String
  done : Bool
deriving DecidableEq, Repr

/-- The largest `int64`. -/
def maxInt64 : Int := 9223372036854775807

/-- The largest id among a row and the rows after it. -/
def largestId : Row → List Row → Int
  | r, [] => r.id
  | r, x :: rest => max r.id (largestId x rest)

/-- Modelled from the spec: the id the store assigns to the next inserted row
(section 3: unique, auto-increment, never reused): 1 in an empty table, else one
more than the largest id in use. -/
def nextId : List Row → Int
  | [] => 1
  | r :: rest => largestId r rest + 1

/-- Modelled from the spec: the store as a table with an auto-assigned unique
integer primary key; the state is the list of rows in store order. The store
understands two statements, recognised by their SQL text: the select of every
column of `todos`, which yields every row with the columns in the order `id`,
`title`, `done`, and the insert of a title and a done flag, which appends a row
under the next id, reports that id as last-insert id, and fails when the ids are
exhausted. Any other statement is refused. -/
def tableDB : DB (List Row) where
  Query := fun t q =>
    if q = "SELECT * FROM todos;" then
      .ok ⟨t.map (fun r => .ok (r.id, r.title, r.done)), none⟩
    else .error "unsupported statement"
  Prepare := fun _ q =>
    if q = "INSERT INTO todos (title, done) VALUES (?, ?);" then none
    else some "unsupported statement"
  Exec := fun t q title done =>
    if q = "INSERT INTO todos (title, done) VALUES (?, ?);" then
      if nextId t ≤ maxInt64 then
        (.ok ⟨.ok (nextId t)⟩, t ++ [⟨nextId t, title, done⟩])
      else (.error "database or disk is full", t)
    else (.error "unsupported statement", t)

/-- The `Todo` that `readAllTodos` builds from the three scanned columns. -/
def todoOfColumns (c : Int × String × Bool) : Todo := ⟨c.1, c.2.1, c.2.2⟩

/-! ## Lemmas on the scan loop -/

theorem scanRows_ok_err (cols : List (Int × String × Bool)) (acc : Slice Todo) :
    (scanRows (cols.map Except.ok) acc).2 = none := by
  induction cols generalizing acc with
  | nil => rfl
  | cons c rest ih =>
    obtain ⟨c1, c2, c3⟩ := c
    simp only [List.map_cons, scanRows]
    exact ih _

theorem scanRows_ok_toList (cols : List (Int × String × Bool)) (acc : Slice Todo) :
    (scanRows (cols.map Except.ok) acc).1.toList = acc.toList ++ cols.map todoOfColumns := by
  induction cols generalizing acc with
  | nil => simp [scanRows]
  | cons c rest ih =>
    obtain ⟨c1, c2, c3⟩ := c
    simp only [List.map_cons, scanRows]
    rw [ih]
    simp [Slice.append, Slice.toList, todoOfColumns]

theorem scanRows_ok_cons (c : Int × String × Bool) (cols : List (Int × String × Bool))
    (acc : Slice Todo) :
    scanRows ((c :: cols).map Except.ok) acc
      = (.mk (acc.toList ++ (c :: cols).map todoOfColumns), none) := by
  induction cols generalizing c acc with
  | nil =>
    obtain ⟨c1, c2, c3⟩ := c
    simp [scanRows, Slice.append, todoOfColumns]
  | cons x rest ih =>
    obtain ⟨c1, c2, c3⟩ := c
    show scanRows ((x :: rest).map Except.ok) (acc.append ⟨c1, c2, c3⟩) = _
    rw [ih x]
    simp [Slice.append, Slice.toList, todoOfColumns]

theorem scanRows_error_at (scans : List (Except String (Int × String × Bool)))
    (acc : Slice Todo) (k : Nat) (e : String) (hk : scans[k]? = some (.error e)) :
    (scanRows scans acc).1 = .nil ∧ (scanRows scans acc).2 ≠ none := by
  induction scans generalizing acc k with
  | nil => simp at hk
  | cons r rest ih =>
    cases r with
    | error e1 => simp [scanRows]
    | ok c =>
      obtain ⟨c1, c2, c3⟩ := c
      cases k with
      | zero => simp at hk
      | succ j =>
        simp only [List.getElem?_cons_succ] at hk
        simp only [scanRows]
        exact ih _ j hk

theorem scanRows_first_error (pre : List (Int × String × Bool))
    (post : List (Except String (Int × String × Bool))) (acc : Slice Todo) (e : String) :
    scanRows (pre.map Except.ok ++ .error e :: post) acc
      = (.nil, some ("Failed to query database: " ++ e)) := by
  induction pre generalizing acc with
  | nil => simp [scanRows]
  | cons c rest ih =>
    obtain ⟨c1, c2, c3⟩ := c
    simp only [List.map_cons, List.cons_append, scanRows]
    exact ih _

theorem split_at_first_error (scans : List (Except String (Int × String × Bool)))
    (k : Nat) (e : String) (hk : scans[k]? = some (.error e))
    (hpre : ∀ i, i < k → ∃ c, scans[i]? = some (.ok c)) :
    ∃ (pre : List (Int × String × Bool)) (post : List (Except String (Int × String × Bool))),
      scans = pre.map Except.ok ++ .error e :: post := by
  induction scans generalizing k with
  | nil => simp at hk
  | cons r rest ih =>
    cases k with
    | zero =>
      simp only [List.getElem?_cons_zero, Option.some.injEq] at hk
      exact ⟨[], rest, by simp [hk]⟩
    | succ j =>
      obtain ⟨c, hc⟩ := hpre 0 (Nat.succ_pos j)
      simp only [List.getElem?_cons_zero, Option.some.injEq] at hc
      simp only [List.getElem?_cons_succ] at hk
      obtain ⟨pre, post, hsplit⟩ := ih j hk (fun i hi => by
        have := hpre (i + 1) (Nat.succ_lt_succ hi)
        simpa using this)
      exact ⟨c :: pre, post, by simp [hc, hsplit]⟩

/-- The listing of a successful query whose rows all scan. -/
theorem readAllTodos_listing {σ : Type} (db : DB σ) (s : σ) (rows : Rows)
    (cols : List (Int × String × Bool))
    (hq : db.Query s getQuery = .ok rows)
    (hs : rows.scans = cols.map Except.ok) :
    (readAllTodos db s).1.toList = cols.map (fun c => (⟨c.1, c.2.1, c.2.2⟩ : Todo)) := by
  simp only [readAllTodos, hq, hs]
  rw [scanRows_ok_toList]
  simp [Slice.toList, todoOfColumns]

theorem le_largestId (r : Row) (rest : List Row) :
    ∀ x ∈ r :: rest, x.id ≤ largestId r rest := by
  induction rest generalizing r with
  | nil => simp [largestId]
  | cons y ys ih =>
    intro x hx
    simp only [largestId]
    rcases List.mem_cons.mp hx with h | h
    · subst h; exact le_max_left _ _
    · exact le_trans (ih y x h) (le_max_right _ _)

theorem lt_nextId (t : List Row) : ∀ x ∈ t, x.id < nextId t := by
  cases t with
  | nil => simp
  | cons r rest =>
    intro x hx
    have := le_largestId r rest x hx
    simp only [nextId]
    omega

/-! ## Reading back what the encoder writes -/

/-- C1: when the body of a POST request fails to decode, `handlePostTodos` answers
status 400 with the body `Bad Request`, sets no header, logs the decode error, and
leaves the store in the state it was in, whatever the database handle would do:
`createTodo` is not reached. -/
theorem handlePostTodos_decode_failure {σ : Type} (db : DB σ)
    (decode : String → Except String TodoData) (s : σ) (body e : String)
    (hd : decode body = .error e) :
    handlePostTodos db decode s body .fresh
      = (⟨[], some 400, "Bad Request"⟩, ["Failed to decode post body " ++ e], s) := by
  unfold handlePostTodos
  rw [hd]
  rfl

/-- An instance of C1 at the body `not json`, with the decoder of encoding/json and
the error text it reports for this body, over a scripted store whose insert would
succeed: status 400, and the execution counter still at 0. -/
theorem handlePostTodos_decode_failure_witness :
    decodeTodoData
        (fun _ => "invalid character \x27o\x27 in literal null (expecting \x27u\x27)") "not json"
        = .error "invalid character \x27o\x27 in literal null (expecting \x27u\x27)"
    ∧ (handlePostTodos scriptedDB
          (decodeTodoData
            (fun _ => "invalid character \x27o\x27 in literal null (expecting \x27u\x27)"))
          ⟨.ok ⟨[], none⟩, none, .ok ⟨.ok 1⟩, 0⟩ "not json" .fresh).1
        = ⟨[], some 400, "Bad Request"⟩
    ∧ (handlePostTodos scriptedDB
          (decodeTodoData
            (fun _ => "invalid character \x27o\x27 in literal null (expecting \x27u\x27)"))
          ⟨.ok ⟨[], none⟩, none, .ok ⟨.ok 1⟩, 0⟩ "not json" .fresh).2.2.execCalls = 0 := by
  have h := handlePostTodos_decode_failure scriptedDB
    (decodeTodoData
      (fun _ => "invalid character \x27o\x27 in literal null (expecting \x27u\x27)"))
    ⟨.ok ⟨[], none⟩, none, .ok ⟨.ok 1⟩, 0⟩ "not json"
    "invalid character \x27o\x27 in literal null (expecting \x27u\x27)" rfl
  refine ⟨rfl, ?_, ?_⟩
  · rw [h]
  · rw [h]

/-- When the query succeeds and every yielded row scans, `handleGetTodos` answers
status 200 with content-type application/json and the encoding of the slice
`readAllTodos` returned, followed by a newline. -/
theorem handleGetTodos_success {σ : Type} (db : DB σ) (s : σ) (todos : Slice Todo)
    (hr : readAllTodos db s = (todos, none)) :
    handleGetTodos db s .fresh
      = (⟨[("Content-Type", "application/json")], some 200, encodeTodos todos ++ "\n"⟩, []) := by
  unfold handleGetTodos
  rw [hr]
  rfl

/-- With at least one row in the table store the body of the GET response is a
JSON array holding one object per row, in store order. -/
theorem handleGetTodos_table_nonempty (r : Row) (rest : List Row) :
    handleGetTodos tableDB (r :: rest) .fresh
      = (⟨[("Content-Type", "application/json")], some 200,
          "[" ++ ",".intercalate ((r :: rest).map
            (fun x => encodeTodo ⟨x.id, x.title, x.done⟩)) ++ "]" ++ "\n"⟩, []) := by
  have h := scanRows_ok_cons (r.id, r.title, r.done)
    (rest.map (fun x => (x.id, x.title, x.done))) .nil
  have hr : readAllTodos tableDB (r :: rest)
      = (.mk ((r :: rest).map (fun x => (⟨x.id, x.title, x.done⟩ : Todo))), none) := by
    simp only [List.map_cons, List.map_map] at h
    simpa [readAllTodos, tableDB, Slice.toList, todoOfColumns, Function.comp_def] using h
  rw [handleGetTodos_success tableDB (r :: rest) _ hr]
  simp [encodeTodos, Function.comp_def]

/-- C3: on the table with zero rows `readAllTodos` succeeds with the nil slice
that `var todos []Todo` declared, and `handleGetTodos` answers status 200 with
content-type application/json and the body `null`: the body is not the empty
JSON array. -/
theorem handleGetTodos_empty_table_null :
    readAllTodos tableDB [] = (.nil, none)
    ∧ handleGetTodos tableDB [] .fresh
        = (⟨[("Content-Type", "application/json")], some 200, "null\n"⟩, [])
    ∧ (handleGetTodos tableDB [] .fresh).1.body ≠ "[]\n" := by
  refine ⟨rfl, rfl, ?_⟩
  decide

/-! ## Repository failures -/

/-- C4: when `readAllTodos` fails, `handleGetTodos` answers status 500 with the
body `Internal Server Error` and no header of its own; when the body decodes and
`createTodo` fails, `handlePostTodos` answers the same. The response does not
depend on the error: its text goes to the log only. -/
theorem repository_failure_is_500 {σ : Type} (db : DB σ)
    (decode : String → Except String TodoData) (s : σ) (body : String) :
    (∀ (todos : Slice Todo) (err : String), readAllTodos db s = (todos, some err) →
      handleGetTodos db s .fresh = (⟨[], some 500, "Internal Server Error"⟩, [err]))
    ∧ (∀ (todoData : TodoData) (todo : Option Todo) (err : String) (s1 : σ),
        decode body = .ok todoData → createTodo db s todoData = ((todo, some err), s1) →
        handlePostTodos db decode s body .fresh
          = (⟨[], some 500, "Internal Server Error"⟩, [err], s1)) := by
  constructor
  · intro todos err hr
    unfold handleGetTodos
    rw [hr]
    rfl
  · intro todoData todo err s1 hd hc
    unfold handlePostTodos
    rw [hd]
    simp only [hc]
    rfl

/-- An instance of C4 over a scripted store whose query and whose insert both fail, with
different messages: both handlers answer the same status and body. -/
theorem repository_failure_is_500_witness :
    (handleGetTodos scriptedDB
        ⟨.error "unable to open database file", none, .error "database is locked", 0⟩
        .fresh).1 = ⟨[], some 500, "Internal Server Error"⟩
    ∧ (handlePostTodos scriptedDB (decodeTodoData (fun _ => ""))
        ⟨.error "unable to open database file", none, .error "database is locked", 0⟩
        "\x7b\"title\":\"Buy milk\",\"done\":false\x7d" .fresh).1
          = ⟨[], some 500, "Internal Server Error"⟩ := by
  have h := repository_failure_is_500 scriptedDB (decodeTodoData (fun _ => ""))
    ⟨.error "unable to open database file", none, .error "database is locked", 0⟩
    "\x7b\"title\":\"Buy milk\",\"done\":false\x7d"
  have hg := h.1 .nil "Failed to query database: unable to open database file" rfl
  have hp := h.2 ⟨"Buy milk", false⟩ none "Failed to insert row: database is locked"
    ⟨.error "unable to open database file", none, .error "database is locked", 1⟩ rfl rfl
  exact ⟨by rw [hg], by rw [hp]⟩

/-! ## createTodo -/

/-- C6: when statement preparation succeeds, execution with the input title and
done succeeds, and the result reports last-insert id `n`, `createTodo` returns no
error and the item with `Id` = n and the title and done of the input as given. -/
theorem createTodo_success {σ : Type} (db : DB σ) (s s1 : σ) (todoData : TodoData)
    (res : Result) (n : Int)
    (hp : db.Prepare s createQuery = none)
    (he : db.Exec s createQuery todoData.Title todoData.Done = (.ok res, s1))
    (hi : res.LastInsertId = .ok n) :
    createTodo db s todoData = ((some ⟨n, todoData.Title, todoData.Done⟩, none), s1) := by
  simp only [createTodo, hp, he, hi]

/-- An instance of C6 at the empty title, over the table store holding one row. -/
theorem createTodo_success_witness :
    createTodo tableDB [⟨1, "a", true⟩] ⟨"", true⟩
      = ((some ⟨2, "", true⟩, none), [⟨1, "a", true⟩, ⟨2, "", true⟩]) :=
  createTodo_success tableDB [⟨1, "a", true⟩] _ ⟨"", true⟩ ⟨.ok 2⟩ 2 rfl rfl rfl

/-- C7: `createTodo` returns an error exactly when preparation fails, or
preparation succeeds and execution fails, or both succeed and the last-insert id
cannot be retrieved; whenever it returns an error the item pointer is nil; and
when preparation fails the store state is the one before the call, whatever
execution would have done to it. -/
theorem createTodo_error_iff {σ : Type} (db : DB σ) (s : σ) (todoData : TodoData) :
    ((createTodo db s todoData).1.2 ≠ none ↔
      (db.Prepare s createQuery ≠ none
        ∨ (db.Prepare s createQuery = none
            ∧ ∃ e, (db.Exec s createQuery todoData.Title todoData.Done).1 = .error e)
        ∨ (db.Prepare s createQuery = none
            ∧ ∃ res e, (db.Exec s createQuery todoData.Title todoData.Done).1 = .ok res
                ∧ res.LastInsertId = .error e)))
    ∧ ((createTodo db s todoData).1.2 ≠ none → (createTodo db s todoData).1.1 = none)
    ∧ (db.Prepare s createQuery ≠ none → (createTodo db s todoData).2 = s) := by
  unfold createTodo
  cases hp : db.Prepare s createQuery with
  | some e0 => simp
  | none =>
    rcases hx : db.Exec s createQuery todoData.Title todoData.Done with ⟨r, s1⟩
    cases r with
    | error e1 => simp
    | ok res =>
      cases hi : res.LastInsertId with
      | error e2 => simp [hi]
      | ok n => simp [hi]

/-- An instance of C7 over a scripted store whose preparation fails and whose execution would
succeed: an error, a nil item, and the execution counter still at 0. -/
theorem createTodo_error_iff_witness :
    (createTodo scriptedDB ⟨.ok ⟨[], none⟩, some "no such table: todos", .ok ⟨.ok 1⟩, 0⟩
        ⟨"a", false⟩).1 = (none, some "Failed to prepare query: no such table: todos")
    ∧ (createTodo scriptedDB ⟨.ok ⟨[], none⟩, some "no such table: todos", .ok ⟨.ok 1⟩, 0⟩
        ⟨"a", false⟩).2.execCalls = 0 := by
  have h := (createTodo_error_iff scriptedDB
    ⟨.ok ⟨[], none⟩, some "no such table: todos", .ok ⟨.ok 1⟩, 0⟩ ⟨"a", false⟩).2.2
    (by simp [scriptedDB])
  exact ⟨rfl, by rw [h]⟩

/-! ## readAllTodos -/

/-- C8: when the query succeeds and the scan of the row at position `k` fails,
`readAllTodos` returns the nil slice and an error; when moreover every row before
`k` scans, the error is the wrapped error of row `k`. The items scanned before
are not returned. -/
theorem readAllTodos_scan_failure {σ : Type} (db : DB σ) (s : σ) (rows : Rows)
    (k : Nat) (e : String)
    (hq : db.Query s getQuery = .ok rows)
    (hk : rows.scans[k]? = some (.error e)) :
    (readAllTodos db s).1 = .nil
    ∧ (readAllTodos db s).2 ≠ none
    ∧ ((∀ i, i < k → ∃ c, rows.scans[i]? = some (.ok c)) →
        readAllTodos db s = (.nil, some ("Failed to query database: " ++ e))) := by
  have hrd : readAllTodos db s = scanRows rows.scans .nil := by
    unfold readAllTodos
    rw [hq]
  rw [hrd]
  obtain ⟨h1, h2⟩ := scanRows_error_at rows.scans .nil k e hk
  refine ⟨h1, h2, ?_⟩
  intro hpre
  obtain ⟨pre, post, hsplit⟩ := split_at_first_error rows.scans k e hk hpre
  rw [hsplit]
  exact scanRows_first_error pre post .nil e

/-- An instance of C8 with two rows scanned before the scan of the third fails. -/
theorem readAllTodos_scan_failure_witness :
    readAllTodos scriptedDB
        ⟨.ok ⟨[.ok (1, "a", false), .ok (2, "b", true), .error "converting NULL to bool"],
          none⟩, none, .ok ⟨.ok 1⟩, 0⟩
      = (.nil, some "Failed to query database: converting NULL to bool") :=
  (readAllTodos_scan_failure scriptedDB
    ⟨.ok ⟨[.ok (1, "a", false), .ok (2, "b", true), .error "converting NULL to bool"],
      none⟩, none, .ok ⟨.ok 1⟩, 0⟩
    ⟨[.ok (1, "a", false), .ok (2, "b", true), .error "converting NULL to bool"], none⟩
    2 "converting NULL to bool" rfl rfl).2.2
    (by
      intro i hi
      match i, hi with
      | 0, _ => exact ⟨_, rfl⟩
      | 1, _ => exact ⟨_, rfl⟩)

/-- C9: when the query succeeds and every yielded row scans, `readAllTodos` returns
no error and one item per row in the order yielded, the item of a row holding its
first, second and third column as `Id`, `Title` and `Done`; the length of the
result is the number of rows, so 0 for zero rows. -/
theorem readAllTodos_all_rows {σ : Type} (db : DB σ) (s : σ) (rows : Rows)
    (cols : List (Int × String × Bool))
    (hq : db.Query s getQuery = .ok rows)
    (hs : rows.scans = cols.map Except.ok) :
    (readAllTodos db s).2 = none
    ∧ (readAllTodos db s).1.toList = cols.map (fun c => (⟨c.1, c.2.1, c.2.2⟩ : Todo))
    ∧ (readAllTodos db s).1.len = cols.length
    ∧ (cols = [] → (readAllTodos db s).1.len = 0) := by
  have hrd : readAllTodos db s = scanRows (cols.map Except.ok) .nil := by
    simp only [readAllTodos, hq, hs]
  have hl := readAllTodos_listing db s rows cols hq hs
  refine ⟨?_, hl, ?_, ?_⟩
  · rw [hrd]
    exact scanRows_ok_err cols .nil
  · simp [Slice.len, hl]
  · intro hc
    simp [Slice.len, hl, hc]

/-- An instance of C9 over the table store with two rows, and with none. -/
theorem readAllTodos_all_rows_witness :
    (readAllTodos tableDB [⟨1, "a", false⟩, ⟨2, "b", true⟩]).1.toList
        = [⟨1, "a", false⟩, ⟨2, "b", true⟩]
    ∧ (readAllTodos tableDB []).1.len = 0
    ∧ (readAllTodos tableDB []).2 = none := by
  have h2 := readAllTodos_all_rows tableDB [⟨1, "a", false⟩, ⟨2, "b", true⟩]
    ⟨[.ok (1, "a", false), .ok (2, "b", true)], none⟩ [(1, "a", false), (2, "b", true)]
    rfl rfl
  have h0 := readAllTodos_all_rows tableDB [] ⟨[], none⟩ [] rfl rfl
  exact ⟨h2.2.1, h0.2.2.1, h0.1⟩

/-- C10: a result set whose iteration stops on an error after one row was
yielded: `readAllTodos` returns that row and no error, and `handleGetTodos`
answers status 200 with the one-element array. -/
theorem readAllTodos_truncated_is_success :
    readAllTodos scriptedDB
        ⟨.ok ⟨[.ok (1, "a", false)], some "disk I/O error"⟩, none, .ok ⟨.ok 1⟩, 0⟩
      = (.mk [⟨1, "a", false⟩], none)
    ∧ handleGetTodos scriptedDB
        ⟨.ok ⟨[.ok (1, "a", false)], some "disk I/O error"⟩, none, .ok ⟨.ok 1⟩, 0⟩ .fresh
      = (⟨[("Content-Type", "application/json")], some 200,
          "[\x7b\"id\":1,\"title\":\"a\",\"done\":false\x7d]\n"⟩, []) :=
  ⟨rfl, rfl⟩

/-! ## Create, then list -/

/-- C5: over the table store, when `createTodo` succeeds and `readAllTodos`
succeeds before and after it, the listing after holds exactly one item under the
returned id, with the title and done of the input; no item of the listing before
has that id; and the listing after is the listing before followed by the created
item, so every earlier item is still there unchanged. -/
theorem create_then_list (t t1 : List Row) (todoData : TodoData) (todo : Todo)
    (before after : Slice Todo)
    (hc : createTodo tableDB t todoData = ((some todo, none), t1))
    (hb : readAllTodos tableDB t = (before, none))
    (ha : readAllTodos tableDB t1 = (after, none)) :
    after.toList.filter (fun x => decide (x.Id = todo.Id))
        = [⟨todo.Id, todoData.Title, todoData.Done⟩]
    ∧ (∀ x ∈ before.toList, x.Id ≠ todo.Id)
    ∧ (∀ x ∈ before.toList, x ∈ after.toList)
    ∧ after.toList = before.toList ++ [todo] := by
  have hlist : ∀ (u : List Row), (readAllTodos tableDB u).1.toList
      = u.map (fun r => (⟨r.id, r.title, r.done⟩ : Todo)) := by
    intro u
    have h := (readAllTodos_listing tableDB u
      ⟨u.map (fun r => .ok (r.id, r.title, r.done)), none⟩
      (u.map (fun r => (r.id, r.title, r.done))) (by simp [tableDB, getQuery]) (by simp))
    simpa [Function.comp_def] using h
  have hbl : before.toList = t.map (fun r => (⟨r.id, r.title, r.done⟩ : Todo)) := by
    rw [← hlist t, hb]
  have hal : after.toList = t1.map (fun r => (⟨r.id, r.title, r.done⟩ : Todo)) := by
    rw [← hlist t1, ha]
  have hcr : todo = ⟨nextId t, todoData.Title, todoData.Done⟩
      ∧ t1 = t ++ [⟨nextId t, todoData.Title, todoData.Done⟩] := by
    simp only [createTodo, tableDB, createQuery, if_true] at hc
    by_cases hfull : nextId t ≤ maxInt64
    · simp [hfull] at hc
      exact ⟨hc.1.symm, hc.2.symm⟩
    · simp [hfull] at hc
  obtain ⟨htodo, ht1⟩ := hcr
  have hfresh : ∀ x ∈ before.toList, x.Id ≠ todo.Id := by
    intro x hx
    rw [hbl] at hx
    obtain ⟨r, hr, rfl⟩ := List.mem_map.mp hx
    have := lt_nextId t r hr
    rw [htodo]
    simp only
    omega
  have happ : after.toList = before.toList ++ [todo] := by
    rw [hal, hbl, ht1, htodo]
    simp
  refine ⟨?_, hfresh, ?_, happ⟩
  · rw [happ, List.filter_append]
    have hnone : before.toList.filter (fun x => decide (x.Id = todo.Id)) = [] := by
      rw [List.filter_eq_nil_iff]
      intro x hx
      simpa using hfresh x hx
    rw [hnone, htodo]
    simp
  · intro x hx
    rw [happ]
    exact List.mem_append_left _ hx

/-- An instance of C5 over a table holding one row: the created item gets id 2
and the listing grows by it. -/
theorem create_then_list_witness :
    createTodo tableDB [⟨1, "a", true⟩] ⟨"Buy milk", false⟩
        = ((some ⟨2, "Buy milk", false⟩, none), [⟨1, "a", true⟩, ⟨2, "Buy milk", false⟩])
    ∧ readAllTodos tableDB [⟨1, "a", true⟩] = (.mk [⟨1, "a", true⟩], none)
    ∧ readAllTodos tableDB [⟨1, "a", true⟩, ⟨2, "Buy milk", false⟩]
        = (.mk [⟨1, "a", true⟩, ⟨2, "Buy milk", false⟩], none)
    ∧ (Slice.mk [(⟨1, "a", true⟩ : Todo), ⟨2, "Buy milk", false⟩]).toList.filter
          (fun x => decide (x.Id = 2)) = [⟨2, "Buy milk", false⟩]
    ∧ (∀ x ∈ (Slice.mk [(⟨1, "a", true⟩ : Todo)]).toList, x.Id ≠ 2) :=
  have h := create_then_list [⟨1, "a", true⟩] [⟨1, "a", true⟩, ⟨2, "Buy milk", false⟩]
    ⟨"Buy milk", false⟩ ⟨2, "Buy milk", false⟩ (.mk [⟨1, "a", true⟩])
    (.mk [⟨1, "a", true⟩, ⟨2, "Buy milk", false⟩]) rfl rfl rfl
  ⟨rfl, rfl, rfl, h.1, h.2.1⟩

end Todos
